import Mathlib

/-!
Shallow embedding of the packet framing/classification core of the
mistsys/tuntap repository.

Bytes are modelled as `Nat` (values below 256 in every well-formed packet);
byte strings as `List Nat`.  The kernel-device conduit is abstracted away:
the decoder takes the raw bytes a single read returned, and the encoder
returns either an error or the exact bytes handed to the conduit.

The IPv6 extension-header walk of `Packet.IPProto` (a `for {}` loop in the
Go source) is embedded as a well-founded recursion on `body.length - pos`;
alongside it sit a fuel-indexed structural version (`ipv6ChainFuel`, used to
evaluate the walk on concrete inputs and to state termination) and a
checked-access version (`ipv6ChainChk`, whose every byte read goes through
`List.getElem?` and which fails with `none` if any read were out of bounds).
-/

/-- EtherType tag for IPv4, as in the source (`ETH_P_IP`). -/
def ETH_P_IP : Nat := 0x0800

/-- EtherType tag for IPv6, as in the source (`ETH_P_IPV6`). -/
def ETH_P_IPV6 : Nat := 0x86dd

/-- Embedding of the Go `Packet` struct: raw body bytes, EtherType-style
protocol tag, and the kernel-side truncation flag. -/
structure Packet where
  Body : List Nat
  Protocol : Nat
  Truncated : Bool
deriving DecidableEq

/-- Embedding of the IPv6 extension-header chain walk inside
`Packet.IPProto` (the `for { switch next { ... } }` loop of the source).
`next` is the current next-header value, `pos` the current offset into the
body.  Each byte read `p.Body[i]` is modelled as `body.getD i 0`; every
read in the source is guarded by the bounds checks embedded here. -/
def ipv6Chain (body : List Nat) (next pos : Nat) : Nat × Nat × Bool :=
  if next = 0 ∨ next = 43 ∨ next = 60 then
    -- hop-by-hop / routing / destination options: length unit 8 bytes
    if _h : pos + 4 > body.length then (0, 0, false)
    else ipv6Chain body (body.getD pos 0) (pos + 8 + body.getD (pos + 1) 0 * 8)
  else if next = 44 then
    -- fragment extension header, fixed 8 bytes
    if _h : pos + 8 > body.length then (0, 0, false)
    else if (body.getD (pos + 2) 0 ||| (body.getD (pos + 3) 0 &&& 0xf8)) ≠ 0 then
      (body.getD pos 0, pos + 8, true)
    else ipv6Chain body (body.getD pos 0) (pos + 8)
  else if next = 51 then
    -- authentication header: length unit 4 bytes
    if _h : pos + 8 > body.length then (0, 0, false)
    else ipv6Chain body (body.getD pos 0) (pos + 8 + body.getD (pos + 1) 0 * 4)
  else if next = 59 then
    -- no next header
    if pos > body.length then (0, 0, false) else (0, body.length, false)
  else
    if pos > body.length then (0, 0, false) else (next, pos, false)
termination_by body.length - pos
decreasing_by all_goals omega

/-- Fuel-indexed structural version of `ipv6Chain`; returns `none` when the
fuel runs out.  Used to evaluate the walk on concrete inputs and to state
that the source loop terminates within `body.length` iterations. -/
def ipv6ChainFuel (body : List Nat) : Nat → Nat → Nat → Option (Nat × Nat × Bool)
  | 0, _, _ => none
  | fuel + 1, next, pos =>
    if next = 0 ∨ next = 43 ∨ next = 60 then
      if pos + 4 > body.length then some (0, 0, false)
      else ipv6ChainFuel body fuel (body.getD pos 0) (pos + 8 + body.getD (pos + 1) 0 * 8)
    else if next = 44 then
      if pos + 8 > body.length then some (0, 0, false)
      else if (body.getD (pos + 2) 0 ||| (body.getD (pos + 3) 0 &&& 0xf8)) ≠ 0 then
        some (body.getD pos 0, pos + 8, true)
      else ipv6ChainFuel body fuel (body.getD pos 0) (pos + 8)
    else if next = 51 then
      if pos + 8 > body.length then some (0, 0, false)
      else ipv6ChainFuel body fuel (body.getD pos 0) (pos + 8 + body.getD (pos + 1) 0 * 4)
    else if next = 59 then
      if pos > body.length then some (0, 0, false) else some (0, body.length, false)
    else
      if pos > body.length then some (0, 0, false) else some (next, pos, false)

/-- Checked-access version of `ipv6Chain`: every byte read goes through
`List.getElem?` and an out-of-bounds read would surface as `none`.  Proving
it never returns `none` shows the source loop never indexes outside the
body. -/
def ipv6ChainChk (body : List Nat) (next pos : Nat) : Option (Nat × Nat × Bool) :=
  if next = 0 ∨ next = 43 ∨ next = 60 then
    if _h : pos + 4 > body.length then some (0, 0, false)
    else
      match body[pos]?, body[pos + 1]? with
      | some nh, some ln => ipv6ChainChk body nh (pos + 8 + ln * 8)
      | _, _ => none
  else if next = 44 then
    if _h : pos + 8 > body.length then some (0, 0, false)
    else
      match body[pos]?, body[pos + 2]?, body[pos + 3]? with
      | some nh, some f2, some f3 =>
        if (f2 ||| (f3 &&& 0xf8)) ≠ 0 then some (nh, pos + 8, true)
        else ipv6ChainChk body nh (pos + 8)
      | _, _, _ => none
  else if next = 51 then
    if _h : pos + 8 > body.length then some (0, 0, false)
    else
      match body[pos]?, body[pos + 1]? with
      | some nh, some ln => ipv6ChainChk body nh (pos + 8 + ln * 4)
      | _, _ => none
  else if next = 59 then
    if pos > body.length then some (0, 0, false) else some (0, body.length, false)
  else
    if pos > body.length then some (0, 0, false) else some (next, pos, false)
termination_by body.length - pos
decreasing_by all_goals omega

/-- Embedding of `Packet.IPProto`: IP protocol number, offset of the IP
datagram payload, and whether the payload belongs to a non-first fragment. -/
def Packet.IPProto (p : Packet) : Nat × Nat × Bool :=
  if p.Protocol = ETH_P_IP then
    if 20 ≤ p.Body.length then
      (p.Body.getD 9 0, (p.Body.getD 0 0 &&& 0xf) <<< 2,
        decide (((p.Body.getD 6 0 &&& 0x1f) ||| p.Body.getD 7 0) ≠ 0))
    else (0, 0, false)
  else if p.Protocol = ETH_P_IPV6 then
    if 40 ≤ p.Body.length then ipv6Chain p.Body (p.Body.getD 6 0) 40
    else (0, 0, false)
  else (0, 0, false)

/-- Checked-access version of `Packet.IPProto`: every byte read (IPv4 header
fields and the whole IPv6 chain walk) goes through `List.getElem?`; an
out-of-bounds read would surface as `none`. -/
def Packet.IPProtoChk (p : Packet) : Option (Nat × Nat × Bool) :=
  if p.Protocol = ETH_P_IP then
    if 20 ≤ p.Body.length then
      match p.Body[6]?, p.Body[7]?, p.Body[9]?, p.Body[0]? with
      | some b6, some b7, some b9, some b0 =>
        some (b9, (b0 &&& 0xf) <<< 2, decide (((b6 &&& 0x1f) ||| b7) ≠ 0))
      | _, _, _, _ => none
    else some (0, 0, false)
  else if p.Protocol = ETH_P_IPV6 then
    if 40 ≤ p.Body.length then
      match p.Body[6]? with
      | some b6 => ipv6ChainChk p.Body b6 40
      | none => none
    else some (0, 0, false)
  else some (0, 0, false)

/-- Embedding of `Packet.DSCP`: the 6-bit differentiated-services field. -/
def Packet.DSCP (p : Packet) : Nat :=
  if p.Protocol = ETH_P_IP then
    if 20 ≤ p.Body.length then p.Body.getD 1 0 >>> 2 else 0
  else if p.Protocol = ETH_P_IPV6 then
    if 40 ≤ p.Body.length then
      ((p.Body.getD 0 0 &&& 0x0f) <<< 2) ||| ((p.Body.getD 1 0 &&& 0xf0) >>> 6)
    else 0
  else 0

/-- Embedding of `Packet.ICMPType`: IP protocol number plus ICMP type and
code bytes when the packet is a non-fragment ICMPv4/ICMPv6 packet with at
least four bytes at the payload offset, `(0, 0, 0)` otherwise. -/
def Packet.ICMPType (p : Packet) : Nat × Nat × Nat :=
  match p.IPProto with
  | (proto, pos, frag) =>
    if frag then (0, 0, 0)
    else if proto = 1 then
      if pos + 4 ≤ p.Body.length then (1, p.Body.getD pos 0, p.Body.getD (pos + 1) 0)
      else (0, 0, 0)
    else if proto = 58 then
      if pos + 4 ≤ p.Body.length then (58, p.Body.getD pos 0, p.Body.getD (pos + 1) 0)
      else (0, 0, 0)
    else (0, 0, 0)

/-- Result of one decode (`Interface.ReadPacket` of the unprefixed codec
variant): the Go method returns `(Packet, error)`, with the partial packet
returned alongside `ErrTruncatedPacket`. -/
inductive ReadResult where
  | ok (pkt : Packet)
  | shortRead
  | truncated (pkt : Packet)
  | notIP
deriving DecidableEq

/-- Embedding of `Interface.ReadPacket` of the unprefixed codec variant
(the repository file that infers the protocol from the IP version nibble and
validates the declared IP length).  The conduit read is abstracted: `raw` is
the byte string the successful `file.Read` returned. -/
def ReadPacket (raw : List Nat) : ReadResult :=
  if raw.length = 0 then ReadResult.shortRead
  else if raw.getD 0 0 >>> 4 = 4 then
    if raw.length < 20 then ReadResult.truncated ⟨raw, ETH_P_IP, false⟩
    else if raw.length < raw.getD 2 0 * 256 + raw.getD 3 0 then
      ReadResult.truncated ⟨raw, ETH_P_IP, false⟩
    else ReadResult.ok ⟨raw.take (raw.getD 2 0 * 256 + raw.getD 3 0), ETH_P_IP, false⟩
  else if raw.getD 0 0 >>> 4 = 6 then
    if raw.length < 40 then ReadResult.truncated ⟨raw, ETH_P_IPV6, false⟩
    else if raw.length < 40 + (raw.getD 4 0 * 256 + raw.getD 5 0) then
      ReadResult.truncated ⟨raw, ETH_P_IPV6, false⟩
    else ReadResult.ok ⟨raw.take (40 + (raw.getD 4 0 * 256 + raw.getD 5 0)), ETH_P_IPV6, false⟩
  else ReadResult.notIP

/-- Result of one encode (`Interface.WritePacket` of the unprefixed codec
variant): either the jumbo-packet rejection, which happens before the
conduit is touched, or the exact bytes handed to the conduit write. -/
inductive WriteResult where
  | jumbo
  | wrote (bytes : List Nat)
deriving DecidableEq

/-- Embedding of `Interface.WritePacket` of the unprefixed codec variant:
bodies longer than 1600 bytes are rejected with `ErrJumboPacket` before any
conduit write; otherwise the body bytes are written as-is. -/
def WritePacket (pkt : Packet) : WriteResult :=
  if 1600 < pkt.Body.length then WriteResult.jumbo
  else WriteResult.wrote pkt.Body

/-- Encoder for the DSCP round-trip, following the words of the claim: write `v`
into an IPv4 header as the top 6 bits of byte 1 (body of the minimum header
length 20). -/
def mkIPv4Dscp (v : Nat) : Packet :=
  ⟨0x45 :: (v <<< 2) :: List.replicate 18 0, ETH_P_IP, false⟩

/-- Encoder for the DSCP round-trip, following the words of the claim: write `v`
into an IPv6 header as the low 4 bits of byte 0 and the top 2 bits of
byte 1 (body of the minimum header length 40). -/
def mkIPv6Dscp (v : Nat) : Packet :=
  ⟨(0x60 ||| (v >>> 2)) :: ((v &&& 0x3) <<< 6) :: List.replicate 38 0, ETH_P_IPV6, false⟩

/-- IPv4 packet with fragment offset 0 and the more-fragments flag set
(byte 6 = 0x20): an initial fragment. -/
def pktC1 : Packet :=
  ⟨[0x45, 0, 0, 20, 0, 0, 0x20, 0, 64, 1, 0, 0, 10, 0, 0, 1, 10, 0, 0, 2],
   ETH_P_IP, false⟩

/-- IPv4 packet with fragment offset 1 (byte 7 = 1): a non-first fragment. -/
def pktC1w : Packet :=
  ⟨[0x45, 0, 0, 20, 0, 0, 0, 1, 64, 1, 0, 0, 10, 0, 0, 1, 10, 0, 0, 2],
   ETH_P_IP, false⟩

/-- IPv6 packet (48 bytes) whose single extension header is a fragment
header with offset 0 and the more-fragments bit set (byte 43 = 0x01),
followed by next-header 6 (TCP): an initial fragment. -/
def pktC2 : Packet :=
  ⟨[0x60, 0, 0, 0, 0, 8, 44, 64] ++ List.replicate 32 0 ++ [6, 0, 0, 1, 0, 0, 0, 0],
   ETH_P_IPV6, false⟩

/-- IPv6 packet (48 bytes) whose single extension header is a fragment
header with nonzero fragment offset (byte 42 = 1): a non-first fragment. -/
def pktC2w : Packet :=
  ⟨[0x60, 0, 0, 0, 0, 8, 44, 64] ++ List.replicate 32 0 ++ [6, 0, 1, 0, 0, 0, 0, 0],
   ETH_P_IPV6, false⟩

/-- IPv6 packet (56 bytes) whose single extension header is an
authentication header with length field 2 (16 bytes total), followed by
payload protocol 6 (TCP). -/
def pktAH : Packet :=
  ⟨[0x60, 0, 0, 0, 0, 16, 51, 64] ++ List.replicate 32 0 ++ [6, 2] ++ List.replicate 14 0,
   ETH_P_IPV6, false⟩

/-- Non-fragment ICMPv4 echo request: protocol 1, ICMP type byte 8 and code
byte 0 at the payload offset 20. -/
def pktEcho : Packet :=
  ⟨[0x45, 0, 0, 24, 0, 0, 0, 0, 64, 1, 0, 0, 10, 0, 0, 1, 10, 0, 0, 2, 8, 0, 0xf7, 0xff],
   ETH_P_IP, false⟩

/-- Raw bytes of an IPv4-tagged read of only 4 bytes whose total-length
field equals the body length (no 20-byte header present). -/
def c3raw : List Nat := [0x40, 0, 0, 4]

/-- Raw bytes of a minimal well-formed IPv4 read: 20 bytes, total-length
field 20. -/
def c3rawOk : List Nat :=
  [0x45, 0, 0, 20, 0, 0, 0, 0, 64, 6, 0, 0, 10, 0, 0, 1, 10, 0, 0, 2]

/-- Packet with a 1601-byte body, one past the write ceiling. -/
def pktJumbo : Packet := ⟨List.replicate 1601 0, ETH_P_IP, false⟩

theorem getElemOpt_eq_some_getD (l : List Nat) (i : Nat) (h : i < l.length) :
    l[i]? = some (l.getD i 0) := by
  rw [List.getElem?_eq_getElem h, List.getD_eq_getElem?_getD, List.getElem?_eq_getElem h]
  rfl

theorem ipv6ChainFuel_spec (body : List Nat) :
    ∀ (fuel next pos : Nat), body.length - pos < fuel →
      ipv6ChainFuel body fuel next pos = some (ipv6Chain body next pos) := by
  intro fuel
  induction fuel with
  | zero => intro next pos h; omega
  | succ n ih =>
    intro next pos h
    rw [ipv6Chain]
    simp only [ipv6ChainFuel]
    split_ifs with h1 h2 h3 h4 h5 h6 h7 h8 h9
    · rfl
    · exact ih _ _ (by omega)
    · rfl
    · rfl
    · exact ih _ _ (by omega)
    · rfl
    · exact ih _ _ (by omega)
    · rfl
    · rfl
    · rfl
    · rfl

theorem ipv6ChainChk_spec (body : List Nat) :
    ∀ (fuel next pos : Nat), body.length - pos < fuel →
      ipv6ChainChk body next pos = some (ipv6Chain body next pos) := by
  intro fuel
  induction fuel with
  | zero => intro next pos h; omega
  | succ n ih =>
    intro next pos h
    rw [ipv6Chain, ipv6ChainChk]
    split_ifs with h1 h2 h3 h4 h5 h6 h7 h8 h9
    · rfl
    · rw [getElemOpt_eq_some_getD body pos (by omega),
        getElemOpt_eq_some_getD body (pos + 1) (by omega)]
      exact ih _ _ (by omega)
    · rfl
    · rw [getElemOpt_eq_some_getD body pos (by omega),
        getElemOpt_eq_some_getD body (pos + 2) (by omega),
        getElemOpt_eq_some_getD body (pos + 3) (by omega)]
      simp only [if_pos h5]
    · rw [getElemOpt_eq_some_getD body pos (by omega),
        getElemOpt_eq_some_getD body (pos + 2) (by omega),
        getElemOpt_eq_some_getD body (pos + 3) (by omega)]
      simp only [if_neg h5]
      exact ih _ _ (by omega)
    · rfl
    · rw [getElemOpt_eq_some_getD body pos (by omega),
        getElemOpt_eq_some_getD body (pos + 1) (by omega)]
      exact ih _ _ (by omega)
    · rfl
    · rfl
    · rfl
    · rfl

theorem ipv6Chain_eval (fuel : Nat) {body : List Nat} {next pos : Nat} {r : Nat × Nat × Bool}
    (h1 : body.length - pos < fuel) (h2 : ipv6ChainFuel body fuel next pos = some r) :
    ipv6Chain body next pos = r := by
  have h3 := ipv6ChainFuel_spec body fuel next pos h1
  rw [h2] at h3
  exact (Option.some.injEq _ _ ▸ h3).symm

theorem IPProto_v6 (p : Packet) (h1 : p.Protocol = ETH_P_IPV6) (h2 : 40 ≤ p.Body.length) :
    p.IPProto = ipv6Chain p.Body (p.Body.getD 6 0) 40 := by
  simp [Packet.IPProto, h1, h2, ETH_P_IP, ETH_P_IPV6]


/-- Bitwise-or of naturals is zero iff both operands are. -/
theorem nat_or_eq_zero (x y : Nat) : x ||| y = 0 ↔ x = 0 ∧ y = 0 := by
  constructor
  · intro h
    refine ⟨Nat.eq_of_testBit_eq fun i => ?_, Nat.eq_of_testBit_eq fun i => ?_⟩ <;>
    · have hb := congrArg (fun n => Nat.testBit n i) h
      simp only [Nat.testBit_or, Nat.zero_testBit, Bool.or_eq_false_iff] at hb
      simp [hb.1, hb.2, Nat.zero_testBit]
  · rintro ⟨rfl, rfl⟩
    rfl

/-- C1 counterexample: `pktC1` is an IPv4 packet of 20 bytes whose
more-fragments flag (bit 0x20 of byte 6) is set while the 13-bit fragment
offset is zero, yet `IPProto` reports `fragment = false` — refuting the
claim that the more-fragments bit alone makes `IPProto` report a
fragment. -/
theorem c1_counterexample :
    pktC1.Protocol = ETH_P_IP ∧ pktC1.Body.length = 20 ∧
    pktC1.Body.getD 6 0 &&& 0x20 = 0x20 ∧
    (pktC1.Body.getD 6 0 &&& 0x1f) * 256 + pktC1.Body.getD 7 0 = 0 ∧
    (pktC1.IPProto).2.2 = false := by decide

/-- C1 (corrected): for every IPv4 packet with a full 20-byte header,
`IPProto` reports `fragment = true` iff the 13-bit fragment-offset field in
bytes 6-7 is nonzero; the more-fragments flag bit is ignored. -/
theorem ipv4_fragment_iff_offset (p : Packet)
    (h1 : p.Protocol = ETH_P_IP) (h2 : 20 ≤ p.Body.length) :
    (p.IPProto).2.2 = true ↔
      (p.Body.getD 6 0 &&& 0x1f) * 256 + p.Body.getD 7 0 ≠ 0 := by
  have he : p.IPProto = (p.Body.getD 9 0, (p.Body.getD 0 0 &&& 0xf) <<< 2,
      decide (((p.Body.getD 6 0 &&& 0x1f) ||| p.Body.getD 7 0) ≠ 0)) := by
    simp [Packet.IPProto, h1, h2]
  rw [he]
  simp only [decide_eq_true_eq]
  rw [ne_eq, ne_eq, not_iff_not, nat_or_eq_zero]
  omega

/-- C1 witness: the corrected statement applied to the concrete non-first
fragment `pktC1w` (offset field 1). -/
theorem ipv4_fragment_iff_offset_witness :
    pktC1w.Protocol = ETH_P_IP ∧ 20 ≤ pktC1w.Body.length ∧
    ((pktC1w.IPProto).2.2 = true ↔
      (pktC1w.Body.getD 6 0 &&& 0x1f) * 256 + pktC1w.Body.getD 7 0 ≠ 0) :=
  ⟨rfl, by decide, ipv4_fragment_iff_offset pktC1w rfl (by decide)⟩

/-- C2 counterexample: `pktC2` is a 48-byte IPv6 packet whose fragment
extension header has fragment offset 0 and the more-fragments bit set
(byte 43 = 0x01), yet `IPProto` reports `(6, 48, false)` — it does not
treat the packet as a fragment, refuting the claim that the
more-fragments bit makes the walk stop with `fragment = true`. -/
theorem c2_counterexample :
    pktC2.Protocol = ETH_P_IPV6 ∧ pktC2.Body.length = 48 ∧
    pktC2.Body.getD 6 0 = 44 ∧
    pktC2.Body.getD 42 0 = 0 ∧ pktC2.Body.getD 43 0 &&& 0xf8 = 0 ∧
    pktC2.Body.getD 43 0 &&& 0x1 = 1 ∧
    pktC2.IPProto = (6, 48, false) := by
  refine ⟨rfl, by decide, by decide, by decide, by decide, by decide, ?_⟩
  rw [IPProto_v6 pktC2 rfl (by decide)]
  have h6 : pktC2.Body.getD 6 0 = 44 := by decide
  rw [h6]
  exact ipv6Chain_eval 9 (by decide) (by decide)

/-- C2 (corrected): at a type-44 fragment extension header with at least
8 bytes available, the walk treats the packet as a fragment iff the
fragment-offset bits (byte `pos+2` and the top five bits of byte `pos+3`)
are nonzero — the more-fragments bit is ignored.  When the offset bits are
nonzero the walk stops immediately after the fixed 8-byte header,
returning `(next-header, pos+8, true)` regardless of any further bytes;
when they are zero it continues past the header. -/
theorem ipv6_fragment_short_circuit (body : List Nat) (pos : Nat)
    (h : pos + 8 ≤ body.length) :
    ((body.getD (pos + 2) 0 ||| (body.getD (pos + 3) 0 &&& 0xf8)) ≠ 0 →
        ipv6Chain body 44 pos = (body.getD pos 0, pos + 8, true)) ∧
    ((body.getD (pos + 2) 0 ||| (body.getD (pos + 3) 0 &&& 0xf8)) = 0 →
        ipv6Chain body 44 pos = ipv6Chain body (body.getD pos 0) (pos + 8)) := by
  constructor <;> intro hf <;>
    rw [ipv6Chain, if_neg (by decide : ¬((44:Nat) = 0 ∨ (44:Nat) = 43 ∨ (44:Nat) = 60)),
      if_pos (rfl : (44:Nat) = 44), dif_neg (by omega : ¬(pos + 8 > body.length))]
  · rw [if_pos hf]
  · rw [if_neg (by simp only [ne_eq, not_not]; exact hf)]

/-- C2 witness: the corrected statement applied to `pktC2w`, whose fragment
header carries nonzero offset bits; the walk returns immediately after the
8-byte header. -/
theorem ipv6_fragment_short_circuit_witness :
    40 + 8 ≤ pktC2w.Body.length ∧
    (pktC2w.Body.getD 42 0 ||| (pktC2w.Body.getD 43 0 &&& 0xf8)) ≠ 0 ∧
    ipv6Chain pktC2w.Body 44 40 = (pktC2w.Body.getD 40 0, 40 + 8, true) :=
  ⟨by decide, by decide,
    (ipv6_fragment_short_circuit pktC2w.Body 40 (by decide)).1 (by decide)⟩

/-- C6: at a type-51 authentication header with at least 8 bytes available,
the walk advances the offset by `8 + len*4` where `len` is the length field
at `pos+1` counted in 4-byte units; and on the concrete packet `pktAH`,
whose only extension header is an AH with length field 2, the payload
offset advances by exactly 16 bytes past the AH start (to 40 + 16 = 56),
not 24. -/
theorem ah_length_units :
    (∀ (body : List Nat) (pos : Nat), pos + 8 ≤ body.length →
        ipv6Chain body 51 pos =
          ipv6Chain body (body.getD pos 0) (pos + 8 + body.getD (pos + 1) 0 * 4)) ∧
    pktAH.Body.getD 41 0 = 2 ∧ pktAH.IPProto = (6, 40 + 16, false) := by
  refine ⟨fun body pos h => ?_, by decide, ?_⟩
  · rw [ipv6Chain, if_neg (by decide : ¬((51:Nat) = 0 ∨ (51:Nat) = 43 ∨ (51:Nat) = 60)),
      if_neg (by decide : ¬(51:Nat) = 44), if_pos (rfl : (51:Nat) = 51),
      dif_neg (by omega : ¬(pos + 8 > body.length))]
  · rw [IPProto_v6 pktAH rfl (by decide)]
    have h6 : pktAH.Body.getD 6 0 = 51 := by decide
    rw [h6]
    exact ipv6Chain_eval 17 (by decide) (by decide)

/-- C6 witness: the general AH step applied to `pktAH` at offset 40. -/
theorem ah_length_units_witness :
    40 + 8 ≤ pktAH.Body.length ∧
    ipv6Chain pktAH.Body 51 40 =
      ipv6Chain pktAH.Body (pktAH.Body.getD 40 0)
        (40 + 8 + pktAH.Body.getD 41 0 * 4) :=
  ⟨by decide, ah_length_units.1 pktAH.Body 40 (by decide)⟩

/-- C3 counterexample: `c3raw` is a 4-byte IPv4-tagged read whose declared
total length L = 4 satisfies L ≤ len(body), yet decode returns
`TruncatedPacket` with the body unchanged instead of trimming to L with no
truncation — refuting the claim for bodies shorter than the 20-byte
minimum IPv4 header. -/
theorem c3_counterexample :
    c3raw.getD 0 0 >>> 4 = 4 ∧
    c3raw.getD 2 0 * 256 + c3raw.getD 3 0 ≤ c3raw.length ∧
    ReadPacket c3raw = ReadResult.truncated ⟨c3raw, ETH_P_IP, false⟩ := by decide

/-- C3 (corrected): for every IPv4-tagged decode (version nibble 4) with
declared total length L: if the body is at least the 20-byte minimum header
and L ≤ len(body), decode trims the body to exactly L bytes and reports no
truncation; if L > len(body), or the body is shorter than 20 bytes (even
when L ≤ len(body)), decode returns `TruncatedPacket` with the partial body
unchanged. -/
theorem readPacket_ipv4_spec (raw : List Nat) (hv : raw.getD 0 0 >>> 4 = 4) :
    (20 ≤ raw.length → raw.getD 2 0 * 256 + raw.getD 3 0 ≤ raw.length →
      ReadPacket raw =
        ReadResult.ok ⟨raw.take (raw.getD 2 0 * 256 + raw.getD 3 0), ETH_P_IP, false⟩) ∧
    (raw.length < raw.getD 2 0 * 256 + raw.getD 3 0 →
      ReadPacket raw = ReadResult.truncated ⟨raw, ETH_P_IP, false⟩) ∧
    (raw.length < 20 →
      ReadPacket raw = ReadResult.truncated ⟨raw, ETH_P_IP, false⟩) := by
  have hne : ¬(raw.length = 0) := by
    intro h0
    rw [List.length_eq_zero] at h0
    subst h0
    simp [List.getD] at hv
  refine ⟨fun h20 hL => ?_, fun hL => ?_, fun h20 => ?_⟩
  · rw [ReadPacket, if_neg hne, if_pos hv, if_neg (by omega), if_neg (by omega)]
  · by_cases h20 : raw.length < 20
    · rw [ReadPacket, if_neg hne, if_pos hv, if_pos h20]
    · rw [ReadPacket, if_neg hne, if_pos hv, if_neg h20, if_pos hL]
  · rw [ReadPacket, if_neg hne, if_pos hv, if_pos h20]

/-- C3 witness: the corrected statement applied to the 20-byte read
`c3rawOk` with total-length field 20. -/
theorem readPacket_ipv4_spec_witness :
    c3rawOk.getD 0 0 >>> 4 = 4 ∧ 20 ≤ c3rawOk.length ∧
    c3rawOk.getD 2 0 * 256 + c3rawOk.getD 3 0 ≤ c3rawOk.length ∧
    ReadPacket c3rawOk =
      ReadResult.ok ⟨c3rawOk.take (c3rawOk.getD 2 0 * 256 + c3rawOk.getD 3 0),
        ETH_P_IP, false⟩ :=
  ⟨by decide, by decide, by decide,
    (readPacket_ipv4_spec c3rawOk (by decide)).1 (by decide) (by decide)⟩

/-- C4 (confirmed): encoding a packet whose body exceeds the 1600-byte hard
ceiling is rejected with `JumboPacket` before the conduit is touched: the
encoder result is the jumbo error and carries no bytes for the device. -/
theorem writePacket_jumbo (pkt : Packet) (h : 1600 < pkt.Body.length) :
    WritePacket pkt = WriteResult.jumbo := by
  rw [WritePacket, if_pos h]

/-- C4 witness: a 1601-byte body is rejected. -/
theorem writePacket_jumbo_witness :
    1600 < pktJumbo.Body.length ∧ WritePacket pktJumbo = WriteResult.jumbo :=
  ⟨by simp only [pktJumbo, List.length_replicate]; omega,
    writePacket_jumbo pktJumbo (by simp only [pktJumbo, List.length_replicate]; omega)⟩

/-- C5 (confirmed): a zero-length conduit read always decodes to the
`ShortRead` error, and in particular never to a valid packet (with an empty
body or otherwise). -/
theorem readPacket_zero (raw : List Nat) (h : raw.length = 0) :
    ReadPacket raw = ReadResult.shortRead ∧
    ∀ pkt : Packet, ReadPacket raw ≠ ReadResult.ok pkt := by
  have he : ReadPacket raw = ReadResult.shortRead := by
    rw [ReadPacket, if_pos h]
  exact ⟨he, fun pkt hc => by rw [he] at hc; exact ReadResult.noConfusion hc⟩

/-- C5 witness: the empty read. -/
theorem readPacket_zero_witness :
    ([] : List Nat).length = 0 ∧ ReadPacket [] = ReadResult.shortRead :=
  ⟨rfl, (readPacket_zero [] rfl).1⟩

/-- C7 (confirmed): every byte dereference of `IPProto` is guarded by a
bounds check.  `IPProtoChk` performs exactly the reads of the source, each
through `List.getElem?`, and returns `none` if any read were out of bounds;
it always returns `some` of the `IPProto` result, so the walk never indexes
outside the body and yields the `(0, 0, false)` sentinel exactly where the
guarded definition does. -/
theorem ipproto_no_out_of_bounds (p : Packet) : p.IPProtoChk = some p.IPProto := by
  by_cases h1 : p.Protocol = ETH_P_IP
  · by_cases h2 : 20 ≤ p.Body.length
    · rw [Packet.IPProtoChk, Packet.IPProto, if_pos h1, if_pos h1, if_pos h2, if_pos h2,
        getElemOpt_eq_some_getD p.Body 6 (by omega),
        getElemOpt_eq_some_getD p.Body 7 (by omega),
        getElemOpt_eq_some_getD p.Body 9 (by omega),
        getElemOpt_eq_some_getD p.Body 0 (by omega)]
    · rw [Packet.IPProtoChk, Packet.IPProto, if_pos h1, if_pos h1, if_neg h2, if_neg h2]
  · by_cases h6 : p.Protocol = ETH_P_IPV6
    · by_cases h2 : 40 ≤ p.Body.length
      · rw [Packet.IPProtoChk, Packet.IPProto, if_neg h1, if_neg h1, if_pos h6, if_pos h6,
          if_pos h2, if_pos h2, getElemOpt_eq_some_getD p.Body 6 (by omega)]
        exact ipv6ChainChk_spec p.Body (p.Body.length + 1) _ 40 (by omega)
      · rw [Packet.IPProtoChk, Packet.IPProto, if_neg h1, if_neg h1, if_pos h6, if_pos h6,
          if_neg h2, if_neg h2]
    · rw [Packet.IPProtoChk, Packet.IPProto, if_neg h1, if_neg h1, if_neg h6, if_neg h6]

/-- C8 (confirmed): `ICMPType` returns
`(protocol, Body[offset], Body[offset+1])` exactly when `IPProto` reports
not-a-fragment, a protocol of 1 (ICMPv4) or 58 (ICMPv6), and at least four
bytes remain at the payload offset, and the zero sentinel `(0, 0, 0)` in
every other case; in particular the non-fragment ICMPv4 echo request
`pktEcho` (type byte 8, code byte 0) yields `(1, 8, 0)`. -/
theorem icmp_type_spec :
    (∀ p : Packet,
      p.ICMPType =
        if (p.IPProto).2.2 = false ∧ ((p.IPProto).1 = 1 ∨ (p.IPProto).1 = 58) ∧
            (p.IPProto).2.1 + 4 ≤ p.Body.length
        then ((p.IPProto).1, p.Body.getD (p.IPProto).2.1 0,
              p.Body.getD ((p.IPProto).2.1 + 1) 0)
        else (0, 0, 0)) ∧
    pktEcho.ICMPType = (1, 8, 0) := by
  constructor
  · intro p
    rcases hr : p.IPProto with ⟨proto, pos, frag⟩
    rw [Packet.ICMPType, hr]
    cases frag
    · by_cases hp1 : proto = 1
      · subst hp1
        by_cases h4 : pos + 4 ≤ p.Body.length <;> simp [h4]
      · by_cases hp58 : proto = 58
        · subst hp58
          by_cases h4 : pos + 4 ≤ p.Body.length <;> simp [h4]
        · simp [hp1, hp58]
    · simp
  · decide

/-- C9 (confirmed): DSCP extraction round-trips for all 64 six-bit values:
writing `v` into an IPv4 header as the top 6 bits of byte 1
(`mkIPv4Dscp`), or into an IPv6 header as the low 4 bits of byte 0 and the
top 2 bits of byte 1 (`mkIPv6Dscp`), and extracting with `Packet.DSCP`
(formulas `byte1 >>> 2` and
`((byte0 &&& 0x0F) <<< 2) ||| ((byte1 &&& 0xF0) >>> 6)`) returns exactly
`v`. -/
theorem dscp_roundtrip :
    ∀ v : Fin 64, (mkIPv4Dscp v.val).DSCP = v.val ∧ (mkIPv6Dscp v.val).DSCP = v.val := by
  decide

/-- C10 (confirmed): the IPv6 extension-chain walk terminates on every
input: the fuel-indexed loop `ipv6ChainFuel` never exhausts its fuel once
the fuel exceeds `body.length - pos` (each iteration that continues
advances the offset by at least 8 within the body), and it computes the
same result as the loop `ipv6Chain`. -/
theorem ipv6Chain_terminates (body : List Nat) (next pos fuel : Nat)
    (h : body.length - pos < fuel) :
    ipv6ChainFuel body fuel next pos = some (ipv6Chain body next pos) :=
  ipv6ChainFuel_spec body fuel next pos h

/-- C10 witness: the walk of `pktC2w` from the fixed header on, with fuel
`body.length + 1`. -/
theorem ipv6Chain_terminates_witness :
    pktC2w.Body.length - 40 < 49 ∧
    ipv6ChainFuel pktC2w.Body 49 44 40 = some (ipv6Chain pktC2w.Body 44 40) :=
  ⟨by decide, ipv6Chain_terminates pktC2w.Body 44 40 49 (by decide)⟩
